/-
Verification of the REST2 system-rewrite core (`kinope/tempering.py`)
against its natural-language specification.

The Python module is shallowly embedded: bonded and nonbonded terms are
records of rational parameters, the classifier and the assembler loops
are structurally transcribed list functions, the custom-force energy
strings are transcribed as rational-valued functions (with the Lepton
`delta` indicator made explicit), and the protocol generator's
expression strings are transcribed as real-valued functions of lambda.
-/
import Mathlib

set_option autoImplicit false

namespace Kinope

/-! ## Data model: interaction terms of the original system -/

/-- A harmonic bond term: two particle indices, equilibrium length, force constant. -/
structure BondTerm where
  p1 : ℕ
  p2 : ℕ
  length : ℚ
  k : ℚ
  deriving DecidableEq, Repr

/-- A harmonic angle term: three particle indices, equilibrium angle, force constant. -/
structure AngleTerm where
  p1 : ℕ
  p2 : ℕ
  p3 : ℕ
  theta0 : ℚ
  k : ℚ
  deriving DecidableEq, Repr

/-- A periodic torsion term: four particle indices, periodicity, phase, force constant. -/
structure TorsionTerm where
  p1 : ℕ
  p2 : ℕ
  p3 : ℕ
  p4 : ℕ
  per : ℚ
  phase : ℚ
  k : ℚ
  deriving DecidableEq, Repr

/-- Per-particle nonbonded parameters (charge, sigma, epsilon). -/
structure NBParticle where
  q : ℚ
  sigma : ℚ
  epsilon : ℚ
  deriving DecidableEq, Repr

/-- A nonbonded exception: a particle pair with overriding (chargeProd, sigma, epsilon). -/
structure NBException where
  p1 : ℕ
  p2 : ℕ
  chargeProd : ℚ
  sigma : ℚ
  epsilon : ℚ
  deriving DecidableEq, Repr

/-! ## Partition classifier (`RESTFactory.get_identifier`) -/

/-- Source: `self._solvent_region = list(set(range(num_particles)).difference(set(solute_region)))`:
the complement of the solute region inside the valid particle indices. -/
def solvent_region (numParticles : ℕ) (solute : List ℕ) : List ℕ :=
  (List.range numParticles).filter (fun x => x ∉ solute)

/-- The `type(particles) == int` branch of `get_identifier`:
`0 if particles in self._solute_region else 1`. -/
def get_identifier_single (solute : List ℕ) (p : ℕ) : ℕ :=
  if p ∈ solute then 0 else 1

/-- The list branch of `get_identifier`: `1` if every participant is in the
solvent region, else `0` if every participant is in the solute region, else `2`. -/
def get_identifier (numParticles : ℕ) (solute : List ℕ) (particles : List ℕ) : ℕ :=
  if particles.all (fun x => x ∈ solvent_region numParticles solute) then 1
  else if particles.all (fun x => x ∈ solute) then 0
  else 2

/-! ## Term rewriter: the custom bonded energy expressions

`scaling_expression` (non-nb form) reads, with `delta` the Lepton indicator of zero:
`scale_factor = solute_scale*_is_solute + solvent_scale*_is_solvent + inter_scale*_is_inter;
 solvent_scale = 1.;
 _is_solute = delta(identifier); _is_solvent = delta(1-identifier); _is_inter = delta(2-identifier);`
-/

/-- Lepton's `delta(x)`: 1 when the argument is exactly zero, else 0. -/
def deltaFn (x : ℚ) : ℚ :=
  if x = 0 then 1 else 0

/-- The `scale_factor` as computed by `RESTFactory.scaling_expression` for bonded
forces, as a function of the two global parameters and the per-term
`identifier` parameter; `solvent_scale` is the hard-coded constant `1.`. -/
def scale_factor (solute_scale inter_scale : ℚ) (identifier : ℚ) : ℚ :=
  solute_scale * deltaFn identifier + 1 * deltaFn (1 - identifier)
    + inter_scale * deltaFn (2 - identifier)

/-- Original harmonic bond energy `(k/2)*(r-length)^2`. -/
def bondEnergy (length k : ℚ) (r : ℚ) : ℚ :=
  (k / 2) * (r - length) ^ 2

/-- Original harmonic angle energy `(k/2)*(theta-theta0)^2`. -/
def angleEnergy (theta0 k : ℚ) (theta : ℚ) : ℚ :=
  (k / 2) * (theta - theta0) ^ 2

/-- Original periodic torsion energy `k*(1+cos(periodicity*theta-phase))`,
with the cosine supplied as an explicit function argument so the energy
algebra stays inside ℚ. -/
def torsionEnergy (cosFn : ℚ → ℚ) (per phase k : ℚ) (theta : ℚ) : ℚ :=
  k * (1 + cosFn (per * theta - phase))

/-- A bond as stored in the output `CustomBondForce`:
per-bond parameters `[length, k, identifier]`. -/
structure OutBond where
  p1 : ℕ
  p2 : ℕ
  length : ℚ
  k : ℚ
  identifier : ℚ
  deriving DecidableEq, Repr

/-- An angle as stored in the output `CustomAngleForce`. -/
structure OutAngle where
  p1 : ℕ
  p2 : ℕ
  p3 : ℕ
  theta0 : ℚ
  k : ℚ
  identifier : ℚ
  deriving DecidableEq, Repr

/-- A torsion as stored in the output `CustomTorsionForce`. -/
structure OutTorsion where
  p1 : ℕ
  p2 : ℕ
  p3 : ℕ
  p4 : ℕ
  per : ℚ
  phase : ℚ
  k : ℚ
  identifier : ℚ
  deriving DecidableEq, Repr

/-- The rewritten bond energy of `_add_bond_force_terms`:
`(K/2)*(r-length)^2; K = k*scale_factor; <scaling_expression>`. -/
def restBondEnergy (solute_scale inter_scale : ℚ) (b : OutBond) (r : ℚ) : ℚ :=
  (b.k * scale_factor solute_scale inter_scale b.identifier / 2) * (r - b.length) ^ 2

/-- The rewritten angle energy of `_add_angle_force_terms`. -/
def restAngleEnergy (solute_scale inter_scale : ℚ) (a : OutAngle) (theta : ℚ) : ℚ :=
  (a.k * scale_factor solute_scale inter_scale a.identifier / 2) * (theta - a.theta0) ^ 2

/-- The rewritten torsion energy of `_add_torsion_force_terms`:
`K*(1+cos(periodicity*theta-phase)); K = k*scale_factor; <scaling_expression>`. -/
def restTorsionEnergy (cosFn : ℚ → ℚ) (solute_scale inter_scale : ℚ)
    (t : OutTorsion) (theta : ℚ) : ℚ :=
  (t.k * scale_factor solute_scale inter_scale t.identifier)
    * (1 + cosFn (t.per * theta - t.phase))

/-! ## System assembler: bonded loops (`_add_bonds`, `_add_angles`, `_add_torsions`) -/

/-- One iteration of the `_add_bonds` loop: copy the parameters and attach
`get_identifier([p1, p2])`. -/
def rewriteBond (numParticles : ℕ) (solute : List ℕ) (b : BondTerm) : OutBond :=
  ⟨b.p1, b.p2, b.length, b.k, (get_identifier numParticles solute [b.p1, b.p2] : ℚ)⟩

/-- One iteration of the `_add_angles` loop. -/
def rewriteAngle (numParticles : ℕ) (solute : List ℕ) (a : AngleTerm) : OutAngle :=
  ⟨a.p1, a.p2, a.p3, a.theta0, a.k,
    (get_identifier numParticles solute [a.p1, a.p2, a.p3] : ℚ)⟩

/-- One iteration of the `_add_torsions` loop. -/
def rewriteTorsion (numParticles : ℕ) (solute : List ℕ) (t : TorsionTerm) : OutTorsion :=
  ⟨t.p1, t.p2, t.p3, t.p4, t.per, t.phase, t.k,
    (get_identifier numParticles solute [t.p1, t.p2, t.p3, t.p4] : ℚ)⟩

/-- Loop `_add_bonds`: every original bond is rewritten, in order. -/
def add_bonds (numParticles : ℕ) (solute : List ℕ) (bonds : List BondTerm) : List OutBond :=
  bonds.map (rewriteBond numParticles solute)

/-- Loop `_add_angles`: every original angle is rewritten, in order. -/
def add_angles (numParticles : ℕ) (solute : List ℕ) (angles : List AngleTerm) : List OutAngle :=
  angles.map (rewriteAngle numParticles solute)

/-- Loop `_add_torsions`: every original torsion is rewritten, in order. -/
def add_torsions (numParticles : ℕ) (solute : List ℕ) (torsions : List TorsionTerm) :
    List OutTorsion :=
  torsions.map (rewriteTorsion numParticles solute)

/-! ## System assembler: nonbonded loop (`_add_nonbondeds`)

The output `NonbondedForce` declares the global parameters
`electrostatic_scale` and `steric_scale`, both defaulted to `0.`.
Parameter offsets are the engine's additive mechanism:
`effective = base + Σ (global value) * (offset contribution)`. -/

/-- Arguments of `addParticleParameterOffset(param, particle, chargeScale, sigmaScale, epsilonScale)`. -/
structure ParticleOffset where
  param : String
  particle : ℕ
  q : ℚ
  sigma : ℚ
  epsilon : ℚ
  deriving DecidableEq, Repr

/-- Arguments of `addExceptionParameterOffset(param, exceptionIndex, chargeProdScale, sigmaScale, epsilonScale)`. -/
structure ExceptionOffset where
  param : String
  exception : ℕ
  chargeProd : ℚ
  sigma : ℚ
  epsilon : ℚ
  deriving DecidableEq, Repr

/-- One iteration of the particle loop of `_add_nonbondeds`: the particle's
original parameters are always copied; a particle whose identifier is not 1
(i.e. a solute particle) additionally gets the two parameter offsets
`('electrostatic_scale', idx, q, 0.0*sigma, epsilon*0.0)` and
`('steric_scale', idx, q*0.0, 0.0*sigma, epsilon)`. -/
def rewriteNBParticle (solute : List ℕ) (idx : ℕ) (p : NBParticle) :
    NBParticle × List ParticleOffset :=
  if get_identifier_single solute idx = 1 then
    (p, [])
  else
    (p, [⟨"electrostatic_scale", idx, p.q, 0 * p.sigma, p.epsilon * 0⟩,
         ⟨"steric_scale", idx, p.q * 0, 0 * p.sigma, p.epsilon⟩])

/-- The particle loop of `_add_nonbondeds` over all particles (particle `i`
of the original nonbonded force carries index `i`). -/
def add_nonbonded_particles (solute : List ℕ) (ps : List NBParticle) :
    List (NBParticle × List ParticleOffset) :=
  ps.enum.map (fun ip => rewriteNBParticle solute ip.1 ip.2)

/-- One iteration of the exception loop of `_add_nonbondeds`: the exception is
copied unconditionally (`addException` returns its index `excIdx`); then a
solvent exception gains no offset, a solute exception gains
`('steric_scale', excIdx, chargeProd, 0.0*sigma, epsilon)`, and an inter
exception gains `('electrostatic_scale', excIdx, chargeProd, 0.0*sigma, epsilon)`. -/
def rewriteNBException (numParticles : ℕ) (solute : List ℕ) (excIdx : ℕ)
    (e : NBException) : NBException × List ExceptionOffset :=
  let identifier := get_identifier numParticles solute [e.p1, e.p2]
  if identifier = 1 then
    (e, [])
  else if identifier = 0 then
    (e, [⟨"steric_scale", excIdx, e.chargeProd, 0 * e.sigma, e.epsilon⟩])
  else
    (e, [⟨"electrostatic_scale", excIdx, e.chargeProd, 0 * e.sigma, e.epsilon⟩])

/-- The exception loop of `_add_nonbondeds` (exception `i` of the original
force becomes output exception `i`, since `addException` appends). -/
def add_nonbonded_exceptions (numParticles : ℕ) (solute : List ℕ)
    (es : List NBException) : List (NBException × List ExceptionOffset) :=
  es.enum.map (fun ie => rewriteNBException numParticles solute ie.1 ie.2)

/-- The value of a global parameter in a context where `electrostatic_scale`
and `steric_scale` are set; any other global name stays at a default of 0
(only these two are ever referenced by the offsets the assembler creates). -/
def globalValue (electrostatic_scale steric_scale : ℚ) (param : String) : ℚ :=
  if param = "electrostatic_scale" then electrostatic_scale
  else if param = "steric_scale" then steric_scale
  else 0

/-- The engine's effective per-particle parameters:
base parameters plus the sum of `globalValue * contribution` over the
particle's parameter offsets. -/
def effectiveParticle (electrostatic_scale steric_scale : ℚ)
    (base : NBParticle) (offsets : List ParticleOffset) : NBParticle :=
  offsets.foldl
    (fun acc o =>
      let s := globalValue electrostatic_scale steric_scale o.param
      ⟨acc.q + s * o.q, acc.sigma + s * o.sigma, acc.epsilon + s * o.epsilon⟩)
    base

/-- The engine's effective exception parameters (chargeProd, sigma, epsilon). -/
def effectiveException (electrostatic_scale steric_scale : ℚ)
    (base : NBException) (offsets : List ExceptionOffset) : NBException :=
  offsets.foldl
    (fun acc o =>
      let s := globalValue electrostatic_scale steric_scale o.param
      ⟨acc.p1, acc.p2, acc.chargeProd + s * o.chargeProd,
        acc.sigma + s * o.sigma, acc.epsilon + s * o.epsilon⟩)
    base

/-! ## Assembler initialisation sequence (`RESTFactory.__init__`)

`__init__` is modelled as the ordered list of observable events it performs:
state-mutating copies into the output system, and the failure points, in the
exact statement order of the source. -/

/-- The force kinds of the input system, keyed as in
`{type(force).__name__: force for force in system.getForces()}`. -/
structure OGSystem where
  numParticles : ℕ
  forceNames : List String
  deriving DecidableEq, Repr

/-- The set `RESTFactory._known_forces`. -/
def known_forces : List String :=
  ["HarmonicBondForce", "HarmonicAngleForce", "PeriodicTorsionForce",
   "NonbondedForce", "MonteCarloBarostat"]

/-- An observable event of `__init__`: a mutation of the output system, a
read of the original system's term lists, or a raised error. -/
inductive InitEvent where
  | assertFail
  | lookupFail (forceName : String)
  | copyMasses
  | addBarostat
  | setBoxVectors
  | raiseUnknown (forceNames : List String)
  | addConstraints
  | addBondForceTerms
  | addBonds
  | addAngleForceTerms
  | addAngles
  | addTorsionForceTerms
  | addTorsions
  | addNonbondedForceTerms
  | addNonbondeds
  deriving DecidableEq, Repr

/-- Whether an event is a raised Python error (assertion failure, `KeyError`
from a missing force lookup, or the unknown-forces `ValueError`). -/
def InitEvent.isFailure : InitEvent → Bool
  | .assertFail => true
  | .lookupFail _ => true
  | .raiseUnknown _ => true
  | _ => false

/-- The ordered event trace of `RESTFactory.__init__`:
1. `assert set(solute_region).issubset(set(range(num_particles)))`;
2. `self._og_system_forces['NonbondedForce'].getNonbondedMethod()` (KeyError
   when absent);
3. copy particle masses into the fresh output system;
4. deep-copy the barostat when present;
5. copy the default periodic box vectors;
6. raise `ValueError(f"Unknown forces {unknown_forces} ...")` when the input
   force kinds are not all known;
7. copy constraints, then per kind: install the custom force container and
   populate it from the original force (KeyError when the original force of
   that kind is absent). -/
def init_trace (sys : OGSystem) (solute : List ℕ) : List InitEvent :=
  if ¬ solute.all (fun p => p < sys.numParticles) then [.assertFail]
  else if "NonbondedForce" ∉ sys.forceNames then [.lookupFail "NonbondedForce"]
  else
    [InitEvent.copyMasses]
      ++ (if "MonteCarloBarostat" ∈ sys.forceNames then [InitEvent.addBarostat] else [])
      ++ [InitEvent.setBoxVectors]
      ++ (if sys.forceNames.filter (fun n => n ∉ known_forces) ≠ [] then
            [InitEvent.raiseUnknown (sys.forceNames.filter (fun n => n ∉ known_forces))]
          else
            [InitEvent.addConstraints, InitEvent.addBondForceTerms]
              ++ (if "HarmonicBondForce" ∉ sys.forceNames then
                    [InitEvent.lookupFail "HarmonicBondForce"]
                  else
                    [InitEvent.addBonds, InitEvent.addAngleForceTerms]
                      ++ (if "HarmonicAngleForce" ∉ sys.forceNames then
                            [InitEvent.lookupFail "HarmonicAngleForce"]
                          else
                            [InitEvent.addAngles, InitEvent.addTorsionForceTerms]
                              ++ (if "PeriodicTorsionForce" ∉ sys.forceNames then
                                    [InitEvent.lookupFail "PeriodicTorsionForce"]
                                  else
                                    [InitEvent.addTorsions,
                                     InitEvent.addNonbondedForceTerms,
                                     InitEvent.addNonbondeds]))))

/-- Assembly succeeds iff its event trace contains no raised error. -/
def init_ok (sys : OGSystem) (solute : List ℕ) : Bool :=
  (init_trace sys solute).all (fun e => ! e.isFailure)

/-! ## Protocol generator (`RESTFactory.get_protocol`)

The returned expression strings are transcribed as real-valued functions of
`lambda`, with Lepton's `step` and `select` made explicit. -/

/-- Lepton's `step(x)`: 0 for `x < 0`, 1 otherwise. -/
noncomputable def stepFn (x : ℝ) : ℝ :=
  if x < 0 then 0 else 1

/-- Lepton's `select(x, y, z)`: `z` when `x = 0`, else `y`. -/
noncomputable def selectFn (x y z : ℝ) : ℝ :=
  if x = 0 then z else y

/-- Source template `"{T_min} + ({T_max} - {T_min})*(exp(2*{exponand}) - 1) / (exp(1) - 1)"`. -/
noncomputable def baseTemperature (Tmin Tmax : ℝ) (exponand : ℝ) : ℝ :=
  Tmin + (Tmax - Tmin) * (Real.exp (2 * exponand) - 1) / (Real.exp 1 - 1)

/-- The `temperature_expression`: `select(step(lambda - 0.5), cooled, heated)`
where the cooled branch substitutes `(1.0 - lambda)` and the heated branch
substitutes `(lambda)`. -/
noncomputable def temperature_expression (Tmin Tmax lam : ℝ) : ℝ :=
  selectFn (stepFn (lam - 0.5))
    (baseTemperature Tmin Tmax (1.0 - lam))
    (baseTemperature Tmin Tmax lam)

/-- Entry `'solute_scale': f"{T_min} / {temperature_expression}"`. -/
noncomputable def solute_scale_expr (Tmin Tmax lam : ℝ) : ℝ :=
  Tmin / temperature_expression Tmin Tmax lam

/-- Entry `'inter_scale': f"sqrt({T_min} / {temperature_expression})"`. -/
noncomputable def inter_scale_expr (Tmin Tmax lam : ℝ) : ℝ :=
  Real.sqrt (Tmin / temperature_expression Tmin Tmax lam)

/-- Entry `'steric_scale': f"({T_min} / {temperature_expression}) - 1"`. -/
noncomputable def steric_scale_expr (Tmin Tmax lam : ℝ) : ℝ :=
  Tmin / temperature_expression Tmin Tmax lam - 1

/-- Entry `'electrostatic_scale': f"sqrt({T_min} / {temperature_expression}) - 1"`. -/
noncomputable def electrostatic_scale_expr (Tmin Tmax lam : ℝ) : ℝ :=
  Real.sqrt (Tmin / temperature_expression Tmin Tmax lam) - 1

/-- Method `get_protocol`: builds and returns the four-entry alchemical dictionary;
the source performs no validation of the temperature arguments. -/
noncomputable def get_protocol (Tmin Tmax : ℝ) : List (String × (ℝ → ℝ)) :=
  [("solute_scale", solute_scale_expr Tmin Tmax),
   ("inter_scale", inter_scale_expr Tmin Tmax),
   ("steric_scale", steric_scale_expr Tmin Tmax),
   ("electrostatic_scale", electrostatic_scale_expr Tmin Tmax)]

/-- The specification's scale-factor selector for bonded terms (spec §4.2):
`solute_scale` for category SoluteOnly (identifier 0), the fixed constant `1`
for SolventOnly (identifier 1), `inter_scale` for Inter (identifier 2). -/
def scaleFor (solute_scale inter_scale : ℚ) (identifier : ℕ) : ℚ :=
  if identifier = 0 then solute_scale
  else if identifier = 1 then 1
  else inter_scale

/-! ## Helper lemmas -/

theorem mem_solvent_region {numParticles : ℕ} {solute : List ℕ} {p : ℕ} :
    p ∈ solvent_region numParticles solute ↔ p < numParticles ∧ p ∉ solute := by
  simp [solvent_region, List.mem_filter, List.mem_range]

theorem get_identifier_cases (numParticles : ℕ) (solute : List ℕ) (particles : List ℕ) :
    get_identifier numParticles solute particles = 0 ∨
    get_identifier numParticles solute particles = 1 ∨
    get_identifier numParticles solute particles = 2 := by
  unfold get_identifier
  split
  · right; left; rfl
  · split
    · left; rfl
    · right; right; rfl

theorem scale_factor_eq_scaleFor (s i : ℚ) (identifier : ℕ)
    (h : identifier = 0 ∨ identifier = 1 ∨ identifier = 2) :
    scale_factor s i (identifier : ℚ) = scaleFor s i identifier := by
  rcases h with h | h | h <;> subst h <;> norm_num [scale_factor, scaleFor, deltaFn]

theorem scale_factor_at_one (identifier : ℕ)
    (h : identifier = 0 ∨ identifier = 1 ∨ identifier = 2) :
    scale_factor 1 1 (identifier : ℚ) = 1 := by
  rcases h with h | h | h <;> subst h <;> norm_num [scale_factor, deltaFn]

/-! ## Claim theorems -/

/-- C1: for every input system, solute region, and term, the assembled output
is an identity at the reference point: with `solute_scale = 1`,
`inter_scale = 1`, `steric_scale = 0`, `electrostatic_scale = 0`, each
rewritten term's energy (bond, angle, torsion, nonbonded particle, nonbonded
exception) equals the corresponding original term's unscaled energy, for
every term category. For the nonbonded kinds this is stated as the effective
parameters (base plus scaled offsets) being exactly the original parameters,
which determine the nonbonded energy. -/
theorem reference_point_identity (numParticles : ℕ) (solute : List ℕ) :
    (∀ (b : BondTerm) (r : ℚ),
        restBondEnergy 1 1 (rewriteBond numParticles solute b) r
          = bondEnergy b.length b.k r) ∧
    (∀ (a : AngleTerm) (theta : ℚ),
        restAngleEnergy 1 1 (rewriteAngle numParticles solute a) theta
          = angleEnergy a.theta0 a.k theta) ∧
    (∀ (cosFn : ℚ → ℚ) (t : TorsionTerm) (theta : ℚ),
        restTorsionEnergy cosFn 1 1 (rewriteTorsion numParticles solute t) theta
          = torsionEnergy cosFn t.per t.phase t.k theta) ∧
    (∀ (idx : ℕ) (p : NBParticle),
        effectiveParticle 0 0 (rewriteNBParticle solute idx p).1
          (rewriteNBParticle solute idx p).2 = p) ∧
    (∀ (excIdx : ℕ) (e : NBException),
        effectiveException 0 0 (rewriteNBException numParticles solute excIdx e).1
          (rewriteNBException numParticles solute excIdx e).2 = e) := by
  refine ⟨?_, ?_, ?_, ?_, ?_⟩
  · intro b r
    have h := scale_factor_at_one _ (get_identifier_cases numParticles solute [b.p1, b.p2])
    simp only [restBondEnergy, rewriteBond, bondEnergy, h]
    ring
  · intro a theta
    have h := scale_factor_at_one _
      (get_identifier_cases numParticles solute [a.p1, a.p2, a.p3])
    simp only [restAngleEnergy, rewriteAngle, angleEnergy, h]
    ring
  · intro cosFn t theta
    have h := scale_factor_at_one _
      (get_identifier_cases numParticles solute [t.p1, t.p2, t.p3, t.p4])
    simp only [restTorsionEnergy, rewriteTorsion, torsionEnergy, h]
    ring
  · intro idx p
    cases p with
    | mk q sigma epsilon =>
      by_cases h : get_identifier_single solute idx = 1 <;>
        simp [rewriteNBParticle, h, effectiveParticle, globalValue]
  · intro excIdx e
    cases e with
    | mk p1 p2 chargeProd sigma epsilon =>
      rcases get_identifier_cases numParticles solute [p1, p2] with h | h | h <;>
        simp [rewriteNBException, h, effectiveException, globalValue]

/-- C5: for every rewritten bonded term (bond, angle, or torsion), the
rewritten energy multiplies the original force constant by a scale factor
selected by the term's stored category identifier: `solute_scale` if
SoluteOnly (0), the fixed constant 1 if SolventOnly (1), and `inter_scale`
if Inter (2), for all values of `solute_scale` and `inter_scale`. -/
theorem bonded_scale_selection (numParticles : ℕ) (solute : List ℕ)
    (solute_scale inter_scale : ℚ) :
    (∀ (b : BondTerm) (r : ℚ),
        restBondEnergy solute_scale inter_scale (rewriteBond numParticles solute b) r
          = scaleFor solute_scale inter_scale
              (get_identifier numParticles solute [b.p1, b.p2])
            * bondEnergy b.length b.k r) ∧
    (∀ (a : AngleTerm) (theta : ℚ),
        restAngleEnergy solute_scale inter_scale (rewriteAngle numParticles solute a) theta
          = scaleFor solute_scale inter_scale
              (get_identifier numParticles solute [a.p1, a.p2, a.p3])
            * angleEnergy a.theta0 a.k theta) ∧
    (∀ (cosFn : ℚ → ℚ) (t : TorsionTerm) (theta : ℚ),
        restTorsionEnergy cosFn solute_scale inter_scale
            (rewriteTorsion numParticles solute t) theta
          = scaleFor solute_scale inter_scale
              (get_identifier numParticles solute [t.p1, t.p2, t.p3, t.p4])
            * torsionEnergy cosFn t.per t.phase t.k theta) := by
  refine ⟨?_, ?_, ?_⟩
  · intro b r
    have h := scale_factor_eq_scaleFor solute_scale inter_scale _
      (get_identifier_cases numParticles solute [b.p1, b.p2])
    simp only [restBondEnergy, rewriteBond, bondEnergy, h]
    ring
  · intro a theta
    have h := scale_factor_eq_scaleFor solute_scale inter_scale _
      (get_identifier_cases numParticles solute [a.p1, a.p2, a.p3])
    simp only [restAngleEnergy, rewriteAngle, angleEnergy, h]
    ring
  · intro cosFn t theta
    have h := scale_factor_eq_scaleFor solute_scale inter_scale _
      (get_identifier_cases numParticles solute [t.p1, t.p2, t.p3, t.p4])
    simp only [restTorsionEnergy, rewriteTorsion, torsionEnergy, h]
    ring

theorem get_identifier_eq_one_iff (numParticles : ℕ) (solute : List ℕ) (ps : List ℕ) :
    get_identifier numParticles solute ps = 1 ↔
      ∀ x ∈ ps, x ∈ solvent_region numParticles solute := by
  unfold get_identifier
  split_ifs with h1 h2
  · simp only [List.all_eq_true, decide_eq_true_eq] at h1
    simpa using h1
  · simp only [List.all_eq_true, decide_eq_true_eq] at h1
    exact iff_of_false (by norm_num) h1
  · simp only [List.all_eq_true, decide_eq_true_eq] at h1
    exact iff_of_false (by norm_num) h1

theorem get_identifier_eq_zero_iff (numParticles : ℕ) (solute : List ℕ) (ps : List ℕ)
    (hne : ps ≠ []) :
    get_identifier numParticles solute ps = 0 ↔ ∀ x ∈ ps, x ∈ solute := by
  obtain ⟨x0, hx0⟩ := List.exists_mem_of_ne_nil ps hne
  unfold get_identifier
  split_ifs with h1 h2
  · simp only [List.all_eq_true, decide_eq_true_eq] at h1
    refine iff_of_false (by norm_num) fun hall => ?_
    exact (mem_solvent_region.mp (h1 x0 hx0)).2 (hall x0 hx0)
  · simp only [List.all_eq_true, decide_eq_true_eq] at h2
    simpa using h2
  · simp only [List.all_eq_true, decide_eq_true_eq] at h2
    exact iff_of_false (by norm_num) h2

theorem get_identifier_eq_two_iff (numParticles : ℕ) (solute : List ℕ) (ps : List ℕ)
    (hvalid : ∀ x ∈ ps, x < numParticles) :
    get_identifier numParticles solute ps = 2 ↔
      ((∃ x ∈ ps, x ∈ solute) ∧
        (∃ x ∈ ps, x ∈ solvent_region numParticles solute)) := by
  unfold get_identifier
  split_ifs with h1 h2
  · simp only [List.all_eq_true, decide_eq_true_eq] at h1
    refine iff_of_false (by norm_num) ?_
    rintro ⟨⟨x, hx, hxs⟩, -⟩
    exact (mem_solvent_region.mp (h1 x hx)).2 hxs
  · simp only [List.all_eq_true, decide_eq_true_eq] at h2
    refine iff_of_false (by norm_num) ?_
    rintro ⟨-, ⟨y, hy, hys⟩⟩
    exact (mem_solvent_region.mp hys).2 (h2 y hy)
  · simp only [List.all_eq_true, decide_eq_true_eq] at h1 h2
    push_neg at h1 h2
    refine iff_of_true rfl ⟨?_, ?_⟩
    · obtain ⟨y, hy, hys⟩ := h1
      refine ⟨y, hy, ?_⟩
      by_contra hyn
      exact hys (mem_solvent_region.mpr ⟨hvalid y hy, hyn⟩)
    · obtain ⟨x, hx, hxs⟩ := h2
      exact ⟨x, hx, mem_solvent_region.mpr ⟨hvalid x hx, hxs⟩⟩

/-- C4: the classifier is a total, side-effect-free function: a single
particle is SoluteOnly (0) iff its index is in the solute set and
SolventOnly (1) otherwise; a nonempty multi-particle term over valid indices
is SolventOnly iff all participants are in the solvent set, SoluteOnly iff
all participants are in the solute set, and Inter iff the membership is
mixed (at least one solute and one solvent participant). -/
theorem classifier_characterisation (numParticles : ℕ) (solute : List ℕ) (p : ℕ)
    (ps : List ℕ) (hne : ps ≠ []) (hvalid : ∀ x ∈ ps, x < numParticles) :
    (get_identifier_single solute p = 0 ↔ p ∈ solute) ∧
    (get_identifier_single solute p = 1 ↔ p ∉ solute) ∧
    (get_identifier numParticles solute ps = 1 ↔
      ∀ x ∈ ps, x ∈ solvent_region numParticles solute) ∧
    (get_identifier numParticles solute ps = 0 ↔ ∀ x ∈ ps, x ∈ solute) ∧
    (get_identifier numParticles solute ps = 2 ↔
      ((∃ x ∈ ps, x ∈ solute) ∧
        (∃ x ∈ ps, x ∈ solvent_region numParticles solute))) := by
  refine ⟨?_, ?_, get_identifier_eq_one_iff numParticles solute ps,
    get_identifier_eq_zero_iff numParticles solute ps hne,
    get_identifier_eq_two_iff numParticles solute ps hvalid⟩
  · unfold get_identifier_single
    split_ifs with h <;> simp [h]
  · unfold get_identifier_single
    split_ifs with h <;> simp [h]

/-- Witness for C4 at a concrete classifier input: three particles, solute
region `{0}`, single particle `0`, term `[0, 2]`. -/
theorem classifier_characterisation_witness :
    ([0, 2] ≠ ([] : List ℕ) ∧ ∀ x ∈ [0, 2], x < 3) ∧
    ((get_identifier_single [0] 0 = 0 ↔ 0 ∈ [0]) ∧
     (get_identifier_single [0] 0 = 1 ↔ 0 ∉ [0]) ∧
     (get_identifier 3 [0] [0, 2] = 1 ↔ ∀ x ∈ [0, 2], x ∈ solvent_region 3 [0]) ∧
     (get_identifier 3 [0] [0, 2] = 0 ↔ ∀ x ∈ [0, 2], x ∈ [0]) ∧
     (get_identifier 3 [0] [0, 2] = 2 ↔
       ((∃ x ∈ [0, 2], x ∈ [0]) ∧ (∃ x ∈ [0, 2], x ∈ solvent_region 3 [0])))) :=
  ⟨⟨by decide, by decide⟩,
    classifier_characterisation 3 [0] 0 [0, 2] (by decide) (by decide)⟩

/-- Counterexample to C2 as stated: for the solute particle `0` with
`(q, sigma, epsilon) = (1, 2, 3)` and solute region `{0}`, the claim requires
a `steric_scale` offset contributing zero charge and FULL sigma and full
epsilon, i.e. an offset with contributions `(0, 2, 3)`; but no offset the
assembler adds for this particle carries the full sigma contribution `2` —
the steric offset is `(0, 0, 3)` (the source passes `0.0*sigma`). -/
theorem particle_offsets_counterexample :
    get_identifier_single [0] 0 = 0 ∧
    (rewriteNBParticle [0] 0 ⟨1, 2, 3⟩).2 =
      [⟨"electrostatic_scale", 0, 1, 0, 0⟩, ⟨"steric_scale", 0, 0, 0, 3⟩] ∧
    ¬ ∃ o ∈ (rewriteNBParticle [0] 0 ⟨1, 2, 3⟩).2,
        o.q = 0 ∧ o.sigma = 2 ∧ o.epsilon = 3 := by
  refine ⟨by decide, ?_, ?_⟩
  · simp [rewriteNBParticle, get_identifier_single]
  · simp [rewriteNBParticle, get_identifier_single]

/-- C2 (amended): for every nonbonded particle classified SoluteOnly, the
assembler keeps its original `(charge, sigma, epsilon)` and adds exactly two
parameter offsets: one driven by `electrostatic_scale` contributing its full
charge and zero sigma and zero epsilon, and one driven by `steric_scale`
contributing zero charge, ZERO sigma and full epsilon; for every particle
classified SolventOnly, no offsets are added. -/
theorem particle_offsets (solute : List ℕ) (idx : ℕ) (p : NBParticle) :
    (get_identifier_single solute idx = 0 →
      rewriteNBParticle solute idx p =
        (p, [⟨"electrostatic_scale", idx, p.q, 0, 0⟩,
             ⟨"steric_scale", idx, 0, 0, p.epsilon⟩])) ∧
    (get_identifier_single solute idx = 1 →
      rewriteNBParticle solute idx p = (p, [])) := by
  constructor
  · intro h
    have h1 : ¬ get_identifier_single solute idx = 1 := by omega
    simp [rewriteNBParticle, h1]
  · intro h
    simp [rewriteNBParticle, h]

/-- Witness for C2 (amended) at solute region `{0}`: particle `0` is
SoluteOnly and gets exactly the two offsets; particle `5` is SolventOnly and
gets none. -/
theorem particle_offsets_witness :
    (get_identifier_single [0] 0 = 0 ∧
      rewriteNBParticle [0] 0 ⟨1, 2, 3⟩ =
        (⟨1, 2, 3⟩, [⟨"electrostatic_scale", 0, 1, 0, 0⟩,
                     ⟨"steric_scale", 0, 0, 0, 3⟩])) ∧
    (get_identifier_single [0] 5 = 1 ∧
      rewriteNBParticle [0] 5 ⟨1, 2, 3⟩ = (⟨1, 2, 3⟩, [])) :=
  ⟨⟨by decide, (particle_offsets [0] 0 ⟨1, 2, 3⟩).1 (by decide)⟩,
   ⟨by decide, (particle_offsets [0] 5 ⟨1, 2, 3⟩).2 (by decide)⟩⟩

/-- Counterexample to C3 as stated: with two particles and solute region
`{0}`, the exception `(0, 1)` with `(chargeProd, sigma, epsilon) = (7, 1, 5)`
is Inter, and the claim requires its `electrostatic_scale` offset to touch
charge only, with zero sigma and zero epsilon contribution; the assembler's
offset is `(7, 0, 5)` — its epsilon contribution is the full `5 ≠ 0`.
Likewise with solute region `{0, 1}` the same exception is SoluteOnly and
the claim requires a zero charge contribution on the `steric_scale` offset;
the assembler contributes the full `chargeProd = 7 ≠ 0`. -/
theorem exception_offsets_counterexample :
    get_identifier 2 [0] [0, 1] = 2 ∧
    (rewriteNBException 2 [0] 0 ⟨0, 1, 7, 1, 5⟩).2 =
      [⟨"electrostatic_scale", 0, 7, 0, 5⟩] ∧
    get_identifier 2 [0, 1] [0, 1] = 0 ∧
    (rewriteNBException 2 [0, 1] 0 ⟨0, 1, 7, 1, 5⟩).2 =
      [⟨"steric_scale", 0, 7, 0, 5⟩] ∧
    (5 : ℚ) ≠ 0 ∧ (7 : ℚ) ≠ 0 := by
  refine ⟨by decide, ?_, by decide, ?_, by norm_num, by norm_num⟩
  · simp [rewriteNBException, show get_identifier 2 [0] [0, 1] = 2 from by decide]
  · simp [rewriteNBException, show get_identifier 2 [0, 1] [0, 1] = 0 from by decide]

/-- C3 (amended): every nonbonded exception is copied unconditionally with
its original `(chargeProd, sigma, epsilon)`; if its category is SoluteOnly
it gains exactly one `steric_scale`-driven offset contributing the FULL
`chargeProd`, zero sigma and full epsilon; if Inter, exactly one
`electrostatic_scale`-driven offset contributing the full `chargeProd`, zero
sigma and the FULL epsilon; if SolventOnly, no offset. -/
theorem exception_offsets (numParticles : ℕ) (solute : List ℕ) (excIdx : ℕ)
    (e : NBException) :
    (rewriteNBException numParticles solute excIdx e).1 = e ∧
    (get_identifier numParticles solute [e.p1, e.p2] = 1 →
      (rewriteNBException numParticles solute excIdx e).2 = []) ∧
    (get_identifier numParticles solute [e.p1, e.p2] = 0 →
      (rewriteNBException numParticles solute excIdx e).2 =
        [⟨"steric_scale", excIdx, e.chargeProd, 0, e.epsilon⟩]) ∧
    (get_identifier numParticles solute [e.p1, e.p2] = 2 →
      (rewriteNBException numParticles solute excIdx e).2 =
        [⟨"electrostatic_scale", excIdx, e.chargeProd, 0, e.epsilon⟩]) := by
  refine ⟨?_, ?_, ?_, ?_⟩
  · rcases get_identifier_cases numParticles solute [e.p1, e.p2] with h | h | h <;>
      simp [rewriteNBException, h]
  · intro h; simp [rewriteNBException, h]
  · intro h; simp [rewriteNBException, h]
  · intro h; simp [rewriteNBException, h]

/-- Witness for C3 (amended): two particles, exception `(0, 1)` with
parameters `(7, 1, 5)`, exercised in the Inter case (solute `{0}`), the
SoluteOnly case (solute `{0, 1}`), and the SolventOnly case (solute `[]`). -/
theorem exception_offsets_witness :
    (get_identifier 2 [0] [0, 1] = 2 ∧
      (rewriteNBException 2 [0] 0 ⟨0, 1, 7, 1, 5⟩).2 =
        [⟨"electrostatic_scale", 0, 7, 0, 5⟩]) ∧
    (get_identifier 2 [0, 1] [0, 1] = 0 ∧
      (rewriteNBException 2 [0, 1] 0 ⟨0, 1, 7, 1, 5⟩).2 =
        [⟨"steric_scale", 0, 7, 0, 5⟩]) ∧
    (get_identifier 2 [] [0, 1] = 1 ∧
      (rewriteNBException 2 [] 0 ⟨0, 1, 7, 1, 5⟩).2 = []) :=
  ⟨⟨by decide, (exception_offsets 2 [0] 0 ⟨0, 1, 7, 1, 5⟩).2.2.2 (by decide)⟩,
   ⟨by decide, (exception_offsets 2 [0, 1] 0 ⟨0, 1, 7, 1, 5⟩).2.2.1 (by decide)⟩,
   ⟨by decide, (exception_offsets 2 [] 0 ⟨0, 1, 7, 1, 5⟩).2.1 (by decide)⟩⟩

theorem barostat_part_all (c : Prop) [Decidable c] :
    (if c then [InitEvent.addBarostat] else []).all
      (fun e => ! InitEvent.isFailure e) = true := by
  split <;> rfl

theorem init_trace_of_assertFail (sys : OGSystem) (solute : List ℕ)
    (h : ¬ solute.all (fun p => p < sys.numParticles) = true) :
    init_trace sys solute = [InitEvent.assertFail] := by
  unfold init_trace
  rw [if_pos h]

theorem init_trace_of_missing_nonbonded (sys : OGSystem) (solute : List ℕ)
    (hA : solute.all (fun p => p < sys.numParticles) = true)
    (h : "NonbondedForce" ∉ sys.forceNames) :
    init_trace sys solute = [InitEvent.lookupFail "NonbondedForce"] := by
  unfold init_trace
  rw [if_neg (not_not_intro hA), if_pos h]

theorem init_trace_unknown_shape (sys : OGSystem) (solute : List ℕ)
    (hA : solute.all (fun p => p < sys.numParticles) = true)
    (hNB : "NonbondedForce" ∈ sys.forceNames)
    (hU : sys.forceNames.filter (fun n => n ∉ known_forces) ≠ []) :
    init_trace sys solute =
      [InitEvent.copyMasses]
        ++ (if "MonteCarloBarostat" ∈ sys.forceNames then [InitEvent.addBarostat] else [])
        ++ [InitEvent.setBoxVectors,
            InitEvent.raiseUnknown
              (sys.forceNames.filter (fun n => n ∉ known_forces))] := by
  unfold init_trace
  rw [if_neg (not_not_intro hA), if_neg (not_not_intro hNB), if_pos hU]
  simp

theorem init_trace_of_missing_bond (sys : OGSystem) (solute : List ℕ)
    (hA : solute.all (fun p => p < sys.numParticles) = true)
    (hNB : "NonbondedForce" ∈ sys.forceNames)
    (hK : sys.forceNames.filter (fun n => n ∉ known_forces) = [])
    (h : "HarmonicBondForce" ∉ sys.forceNames) :
    init_trace sys solute =
      [InitEvent.copyMasses]
        ++ (if "MonteCarloBarostat" ∈ sys.forceNames then [InitEvent.addBarostat] else [])
        ++ [InitEvent.setBoxVectors, InitEvent.addConstraints,
            InitEvent.addBondForceTerms, InitEvent.lookupFail "HarmonicBondForce"] := by
  unfold init_trace
  rw [if_neg (not_not_intro hA), if_neg (not_not_intro hNB),
    if_neg (not_not_intro hK), if_pos h]
  simp

theorem init_trace_of_missing_angle (sys : OGSystem) (solute : List ℕ)
    (hA : solute.all (fun p => p < sys.numParticles) = true)
    (hNB : "NonbondedForce" ∈ sys.forceNames)
    (hK : sys.forceNames.filter (fun n => n ∉ known_forces) = [])
    (hB : "HarmonicBondForce" ∈ sys.forceNames)
    (h : "HarmonicAngleForce" ∉ sys.forceNames) :
    init_trace sys solute =
      [InitEvent.copyMasses]
        ++ (if "MonteCarloBarostat" ∈ sys.forceNames then [InitEvent.addBarostat] else [])
        ++ [InitEvent.setBoxVectors, InitEvent.addConstraints,
            InitEvent.addBondForceTerms, InitEvent.addBonds,
            InitEvent.addAngleForceTerms, InitEvent.lookupFail "HarmonicAngleForce"] := by
  unfold init_trace
  rw [if_neg (not_not_intro hA), if_neg (not_not_intro hNB),
    if_neg (not_not_intro hK), if_neg (not_not_intro hB), if_pos h]
  simp

theorem init_trace_of_missing_torsion (sys : OGSystem) (solute : List ℕ)
    (hA : solute.all (fun p => p < sys.numParticles) = true)
    (hNB : "NonbondedForce" ∈ sys.forceNames)
    (hK : sys.forceNames.filter (fun n => n ∉ known_forces) = [])
    (hB : "HarmonicBondForce" ∈ sys.forceNames)
    (hAn : "HarmonicAngleForce" ∈ sys.forceNames)
    (h : "PeriodicTorsionForce" ∉ sys.forceNames) :
    init_trace sys solute =
      [InitEvent.copyMasses]
        ++ (if "MonteCarloBarostat" ∈ sys.forceNames then [InitEvent.addBarostat] else [])
        ++ [InitEvent.setBoxVectors, InitEvent.addConstraints,
            InitEvent.addBondForceTerms, InitEvent.addBonds,
            InitEvent.addAngleForceTerms, InitEvent.addAngles,
            InitEvent.addTorsionForceTerms,
            InitEvent.lookupFail "PeriodicTorsionForce"] := by
  unfold init_trace
  rw [if_neg (not_not_intro hA), if_neg (not_not_intro hNB),
    if_neg (not_not_intro hK), if_neg (not_not_intro hB),
    if_neg (not_not_intro hAn), if_pos h]
  simp

theorem init_trace_success_shape (sys : OGSystem) (solute : List ℕ)
    (hA : solute.all (fun p => p < sys.numParticles) = true)
    (hNB : "NonbondedForce" ∈ sys.forceNames)
    (hK : sys.forceNames.filter (fun n => n ∉ known_forces) = [])
    (hB : "HarmonicBondForce" ∈ sys.forceNames)
    (hAn : "HarmonicAngleForce" ∈ sys.forceNames)
    (hT : "PeriodicTorsionForce" ∈ sys.forceNames) :
    init_trace sys solute =
      [InitEvent.copyMasses]
        ++ (if "MonteCarloBarostat" ∈ sys.forceNames then [InitEvent.addBarostat] else [])
        ++ [InitEvent.setBoxVectors, InitEvent.addConstraints,
            InitEvent.addBondForceTerms, InitEvent.addBonds,
            InitEvent.addAngleForceTerms, InitEvent.addAngles,
            InitEvent.addTorsionForceTerms, InitEvent.addTorsions,
            InitEvent.addNonbondedForceTerms, InitEvent.addNonbondeds] := by
  unfold init_trace
  rw [if_neg (not_not_intro hA), if_neg (not_not_intro hNB),
    if_neg (not_not_intro hK), if_neg (not_not_intro hB),
    if_neg (not_not_intro hAn), if_neg (not_not_intro hT)]
  simp

theorem init_ok_iff (sys : OGSystem) (solute : List ℕ) :
    init_ok sys solute = true ↔
      ((∀ p ∈ solute, p < sys.numParticles) ∧
       (∀ n ∈ sys.forceNames, n ∈ known_forces) ∧
       "NonbondedForce" ∈ sys.forceNames ∧
       "HarmonicBondForce" ∈ sys.forceNames ∧
       "HarmonicAngleForce" ∈ sys.forceNames ∧
       "PeriodicTorsionForce" ∈ sys.forceNames) := by
  have hallProp : solute.all (fun p => p < sys.numParticles) = true ↔
      ∀ p ∈ solute, p < sys.numParticles := by
    simp [List.all_eq_true]
  have hfilter : sys.forceNames.filter (fun n => n ∉ known_forces) = [] ↔
      ∀ n ∈ sys.forceNames, n ∈ known_forces := by
    simp [List.filter_eq_nil_iff]
  constructor
  · intro hok
    have hA : solute.all (fun p => p < sys.numParticles) = true := by
      by_contra hA
      rw [init_ok, init_trace_of_assertFail sys solute hA] at hok
      simp [InitEvent.isFailure] at hok
    have hNB : "NonbondedForce" ∈ sys.forceNames := by
      by_contra hNB
      rw [init_ok, init_trace_of_missing_nonbonded sys solute hA hNB] at hok
      simp [InitEvent.isFailure] at hok
    have hK : sys.forceNames.filter (fun n => n ∉ known_forces) = [] := by
      by_contra hK
      rw [init_ok, init_trace_unknown_shape sys solute hA hNB hK] at hok
      simp [InitEvent.isFailure, List.all_append] at hok
    have hB : "HarmonicBondForce" ∈ sys.forceNames := by
      by_contra hB
      rw [init_ok, init_trace_of_missing_bond sys solute hA hNB hK hB] at hok
      simp [InitEvent.isFailure, List.all_append] at hok
    have hAn : "HarmonicAngleForce" ∈ sys.forceNames := by
      by_contra hAn
      rw [init_ok, init_trace_of_missing_angle sys solute hA hNB hK hB hAn] at hok
      simp [InitEvent.isFailure, List.all_append] at hok
    have hT : "PeriodicTorsionForce" ∈ sys.forceNames := by
      by_contra hT
      rw [init_ok, init_trace_of_missing_torsion sys solute hA hNB hK hB hAn hT] at hok
      simp [InitEvent.isFailure, List.all_append] at hok
    exact ⟨hallProp.mp hA, hfilter.mp hK, hNB, hB, hAn, hT⟩
  · rintro ⟨hA, hK, hNB, hB, hAn, hT⟩
    rw [init_ok, init_trace_success_shape sys solute (hallProp.mpr hA) hNB
      (hfilter.mpr hK) hB hAn hT]
    simp [InitEvent.isFailure, List.all_append, barostat_part_all]

/-- Counterexample to C8 as stated: for the one-particle system whose force
kinds are `NonbondedForce` and the unknown `FooForce`, the unknown-force
`ValueError` is raised only AFTER the particle masses and the box vectors
have been copied into the output system: the trace begins with `copyMasses`,
not with the raise. -/
theorem unknown_force_counterexample :
    ("FooForce" ∈ (OGSystem.mk 1 ["NonbondedForce", "FooForce"]).forceNames ∧
      "FooForce" ∉ known_forces) ∧
    init_trace (OGSystem.mk 1 ["NonbondedForce", "FooForce"]) [] =
      [InitEvent.copyMasses, InitEvent.setBoxVectors,
       InitEvent.raiseUnknown ["FooForce"]] ∧
    (init_trace (OGSystem.mk 1 ["NonbondedForce", "FooForce"]) [])[0]?
      = some InitEvent.copyMasses :=
  ⟨⟨by decide, by decide⟩, by rfl, by rfl⟩

/-- C8 (amended): whenever the input system contains a force kind outside
the five known kinds (and the earlier checks pass: solute region valid and a
`NonbondedForce` present), assembly raises a `ValueError` naming exactly the
offending kind(s) — but only after the particle masses, any barostat, and
the box vectors have been copied into the output system, and before any
constraints or interaction terms are; the partially built output is never
returned because the constructor propagates the exception. -/
theorem unknown_force_raise_point (sys : OGSystem) (solute : List ℕ)
    (hA : solute.all (fun p => p < sys.numParticles) = true)
    (hNB : "NonbondedForce" ∈ sys.forceNames)
    (hU : sys.forceNames.filter (fun n => n ∉ known_forces) ≠ []) :
    init_trace sys solute =
      [InitEvent.copyMasses]
        ++ (if "MonteCarloBarostat" ∈ sys.forceNames then [InitEvent.addBarostat] else [])
        ++ [InitEvent.setBoxVectors,
            InitEvent.raiseUnknown
              (sys.forceNames.filter (fun n => n ∉ known_forces))] :=
  init_trace_unknown_shape sys solute hA hNB hU

/-- Witness for C8 (amended) at the concrete system
`⟨1, ["NonbondedForce", "FooForce"]⟩` with empty solute region. -/
theorem unknown_force_raise_point_witness :
    (([] : List ℕ).all
        (fun p => p < (OGSystem.mk 1 ["NonbondedForce", "FooForce"]).numParticles) = true ∧
      "NonbondedForce" ∈ (OGSystem.mk 1 ["NonbondedForce", "FooForce"]).forceNames ∧
      (OGSystem.mk 1 ["NonbondedForce", "FooForce"]).forceNames.filter
        (fun n => n ∉ known_forces) ≠ []) ∧
    init_trace (OGSystem.mk 1 ["NonbondedForce", "FooForce"]) [] =
      [InitEvent.copyMasses]
        ++ (if "MonteCarloBarostat" ∈
              (OGSystem.mk 1 ["NonbondedForce", "FooForce"]).forceNames then
              [InitEvent.addBarostat] else [])
        ++ [InitEvent.setBoxVectors,
            InitEvent.raiseUnknown
              ((OGSystem.mk 1 ["NonbondedForce", "FooForce"]).forceNames.filter
                (fun n => n ∉ known_forces))] :=
  ⟨⟨by decide, by decide, by decide⟩,
    unknown_force_raise_point (OGSystem.mk 1 ["NonbondedForce", "FooForce"]) []
      (by decide) (by decide) (by decide)⟩

/-- Counterexample to C9 as stated: the system whose force kinds are the
known subset `{HarmonicBondForce, HarmonicAngleForce, PeriodicTorsionForce,
MonteCarloBarostat}` — i.e. with no `NonbondedForce` — is claimed to be
accepted, but assembly fails at the `KeyError` from
`self._og_system_forces['NonbondedForce']` in `__init__`. -/
theorem missing_force_counterexample :
    (∀ n ∈ (OGSystem.mk 1 ["HarmonicBondForce", "HarmonicAngleForce",
        "PeriodicTorsionForce", "MonteCarloBarostat"]).forceNames,
      n ∈ known_forces) ∧
    init_ok (OGSystem.mk 1 ["HarmonicBondForce", "HarmonicAngleForce",
      "PeriodicTorsionForce", "MonteCarloBarostat"]) [] = false ∧
    init_trace (OGSystem.mk 1 ["HarmonicBondForce", "HarmonicAngleForce",
      "PeriodicTorsionForce", "MonteCarloBarostat"]) [] =
      [InitEvent.lookupFail "NonbondedForce"] :=
  ⟨by decide, by rfl, by rfl⟩

/-- C9 (amended): assembly completes without raising iff the solute region
is a subset of the valid particle indices, every force kind is among the
five known kinds, AND the four force kinds `NonbondedForce`,
`HarmonicBondForce`, `HarmonicAngleForce`, `PeriodicTorsionForce` are all
present — only the barostat may be absent; a system missing any of the four
raises a `KeyError` instead of being accepted. -/
theorem assembly_success_characterisation (sys : OGSystem) (solute : List ℕ) :
    init_ok sys solute = true ↔
      ((∀ p ∈ solute, p < sys.numParticles) ∧
       (∀ n ∈ sys.forceNames, n ∈ known_forces) ∧
       "NonbondedForce" ∈ sys.forceNames ∧
       "HarmonicBondForce" ∈ sys.forceNames ∧
       "HarmonicAngleForce" ∈ sys.forceNames ∧
       "PeriodicTorsionForce" ∈ sys.forceNames) :=
  init_ok_iff sys solute

/-- C10: an empty solute region is accepted by assembly (the empty set is a
subset of the particle indices, so the subset assertion passes and — given a
system whose force kinds are the known ones with the four required forces
present — assembly completes), and in that case every particle and every
multi-particle term over valid indices is classified SolventOnly
(identifier 1), every bonded term in the output carries identifier 1, and
the output nonbonded force receives no particle parameter offsets and no
exception parameter offsets. -/
theorem empty_solute_region (sys : OGSystem)
    (hknown : ∀ n ∈ sys.forceNames, n ∈ known_forces)
    (hnb : "NonbondedForce" ∈ sys.forceNames)
    (hb : "HarmonicBondForce" ∈ sys.forceNames)
    (han : "HarmonicAngleForce" ∈ sys.forceNames)
    (ht : "PeriodicTorsionForce" ∈ sys.forceNames) :
    init_ok sys [] = true ∧
    (∀ p : ℕ, get_identifier_single [] p = 1) ∧
    (∀ ps : List ℕ, (∀ x ∈ ps, x < sys.numParticles) →
      get_identifier sys.numParticles [] ps = 1) ∧
    (∀ b : BondTerm, b.p1 < sys.numParticles → b.p2 < sys.numParticles →
      (rewriteBond sys.numParticles [] b).identifier = 1) ∧
    (∀ a : AngleTerm, a.p1 < sys.numParticles → a.p2 < sys.numParticles →
      a.p3 < sys.numParticles →
      (rewriteAngle sys.numParticles [] a).identifier = 1) ∧
    (∀ t : TorsionTerm, t.p1 < sys.numParticles → t.p2 < sys.numParticles →
      t.p3 < sys.numParticles → t.p4 < sys.numParticles →
      (rewriteTorsion sys.numParticles [] t).identifier = 1) ∧
    (∀ (idx : ℕ) (p : NBParticle), (rewriteNBParticle [] idx p).2 = []) ∧
    (∀ (excIdx : ℕ) (e : NBException), e.p1 < sys.numParticles →
      e.p2 < sys.numParticles →
      (rewriteNBException sys.numParticles [] excIdx e).2 = []) := by
  have hmulti : ∀ ps : List ℕ, (∀ x ∈ ps, x < sys.numParticles) →
      get_identifier sys.numParticles [] ps = 1 := by
    intro ps hvalid
    refine (get_identifier_eq_one_iff sys.numParticles [] ps).mpr ?_
    intro x hx
    exact mem_solvent_region.mpr ⟨hvalid x hx, by simp⟩
  refine ⟨?_, ?_, hmulti, ?_, ?_, ?_, ?_, ?_⟩
  · exact (init_ok_iff sys []).mpr ⟨by simp, hknown, hnb, hb, han, ht⟩
  · intro p
    simp [get_identifier_single]
  · intro b h1 h2
    have h := hmulti [b.p1, b.p2] (by simpa using ⟨h1, h2⟩)
    simp [rewriteBond, h]
  · intro a h1 h2 h3
    have h := hmulti [a.p1, a.p2, a.p3] (by simpa using ⟨h1, h2, h3⟩)
    simp [rewriteAngle, h]
  · intro t h1 h2 h3 h4
    have h := hmulti [t.p1, t.p2, t.p3, t.p4] (by simpa using ⟨h1, h2, h3, h4⟩)
    simp [rewriteTorsion, h]
  · intro idx p
    simp [rewriteNBParticle, get_identifier_single]
  · intro excIdx e h1 h2
    have h := hmulti [e.p1, e.p2] (by simpa using ⟨h1, h2⟩)
    simp [rewriteNBException, h]

/-- Witness for C10 at the concrete two-particle system carrying all five
known force kinds, with empty solute region. -/
theorem empty_solute_region_witness :
    init_ok (OGSystem.mk 2 known_forces) [] = true ∧
    get_identifier_single [] 5 = 1 ∧
    get_identifier 2 [] [0, 1] = 1 ∧
    (rewriteBond 2 [] ⟨0, 1, 1, 1⟩).identifier = 1 ∧
    (rewriteAngle 2 [] ⟨0, 1, 0, 1, 1⟩).identifier = 1 ∧
    (rewriteTorsion 2 [] ⟨0, 1, 0, 1, 1, 1, 1⟩).identifier = 1 ∧
    (rewriteNBParticle [] 0 ⟨1, 2, 3⟩).2 = [] ∧
    (rewriteNBException 2 [] 1 ⟨0, 1, 7, 1, 5⟩).2 = [] :=
  ⟨(empty_solute_region (OGSystem.mk 2 known_forces) (fun n hn => hn)
      (by decide) (by decide) (by decide) (by decide)).1,
   (empty_solute_region (OGSystem.mk 2 known_forces) (fun n hn => hn)
      (by decide) (by decide) (by decide) (by decide)).2.1 5,
   (empty_solute_region (OGSystem.mk 2 known_forces) (fun n hn => hn)
      (by decide) (by decide) (by decide) (by decide)).2.2.1 [0, 1] (by decide),
   (empty_solute_region (OGSystem.mk 2 known_forces) (fun n hn => hn)
      (by decide) (by decide) (by decide) (by decide)).2.2.2.1 ⟨0, 1, 1, 1⟩
      (by decide) (by decide),
   (empty_solute_region (OGSystem.mk 2 known_forces) (fun n hn => hn)
      (by decide) (by decide) (by decide) (by decide)).2.2.2.2.1 ⟨0, 1, 0, 1, 1⟩
      (by decide) (by decide) (by decide),
   (empty_solute_region (OGSystem.mk 2 known_forces) (fun n hn => hn)
      (by decide) (by decide) (by decide) (by decide)).2.2.2.2.2.1
      ⟨0, 1, 0, 1, 1, 1, 1⟩ (by decide) (by decide) (by decide) (by decide),
   (empty_solute_region (OGSystem.mk 2 known_forces) (fun n hn => hn)
      (by decide) (by decide) (by decide) (by decide)).2.2.2.2.2.2.1 0 ⟨1, 2, 3⟩,
   (empty_solute_region (OGSystem.mk 2 known_forces) (fun n hn => hn)
      (by decide) (by decide) (by decide) (by decide)).2.2.2.2.2.2.2 1
      ⟨0, 1, 7, 1, 5⟩ (by decide) (by decide)⟩

theorem temperature_at_zero (Tmin Tmax : ℝ) :
    temperature_expression Tmin Tmax 0 = Tmin := by
  have hstep : stepFn ((0 : ℝ) - 0.5) = 0 := by
    unfold stepFn
    rw [if_pos]
    norm_num
  unfold temperature_expression
  rw [hstep]
  unfold selectFn
  rw [if_pos rfl]
  unfold baseTemperature
  norm_num [Real.exp_zero]

theorem temperature_at_one (Tmin Tmax : ℝ) :
    temperature_expression Tmin Tmax 1 = Tmin := by
  have hstep : stepFn ((1 : ℝ) - 0.5) = 1 := by
    unfold stepFn
    rw [if_neg]
    norm_num
  unfold temperature_expression
  rw [hstep]
  unfold selectFn
  rw [if_neg (by norm_num)]
  unfold baseTemperature
  norm_num [Real.exp_zero]

theorem temperature_at_half (Tmin Tmax : ℝ) :
    temperature_expression Tmin Tmax 0.5 = Tmax := by
  have hpos : (0 : ℝ) < Real.exp 1 - 1 := by
    have h := Real.add_one_le_exp (1 : ℝ)
    linarith
  have hexp : Real.exp 1 - 1 ≠ 0 := ne_of_gt hpos
  have hstep : stepFn ((0.5 : ℝ) - 0.5) = 1 := by
    unfold stepFn
    rw [if_neg]
    norm_num
  unfold temperature_expression
  rw [hstep]
  unfold selectFn
  rw [if_neg (by norm_num)]
  unfold baseTemperature
  rw [show (2 : ℝ) * (1.0 - 0.5) = 1 by norm_num, mul_div_assoc, div_self hexp]
  ring

/-- Counterexample to C6 as stated: the claim quantifies over every pair
`T_min < T_max`, but at `T_min = 0, T_max = 1` (an admissible pair under the
claim) the expression `solute_scale = T_min / T(lambda)` evaluates at
`lambda = 0` to `0 / 0`, not to `1` — the endpoint identity fails for
`T_min = 0`. -/
theorem protocol_boundary_counterexample :
    (0 : ℝ) < 1 ∧ solute_scale_expr 0 1 0 ≠ 1 := by
  refine ⟨by norm_num, ?_⟩
  unfold solute_scale_expr
  rw [zero_div]
  norm_num

/-- C6 (amended): for every `T_min < T_max` with `T_min ≠ 0`, the four
scale-factor expressions of `get_protocol` evaluate at `lambda = 0` and
`lambda = 1` to `solute_scale = 1`, `inter_scale = 1`, `steric_scale = 0`,
`electrostatic_scale = 0`, and at `lambda = 0.5` the effective temperature
equals `T_max`. -/
theorem protocol_boundary_values (Tmin Tmax : ℝ) (h0 : Tmin ≠ 0)
    (hlt : Tmin < Tmax) :
    (solute_scale_expr Tmin Tmax 0 = 1 ∧ inter_scale_expr Tmin Tmax 0 = 1 ∧
     steric_scale_expr Tmin Tmax 0 = 0 ∧
     electrostatic_scale_expr Tmin Tmax 0 = 0) ∧
    (solute_scale_expr Tmin Tmax 1 = 1 ∧ inter_scale_expr Tmin Tmax 1 = 1 ∧
     steric_scale_expr Tmin Tmax 1 = 0 ∧
     electrostatic_scale_expr Tmin Tmax 1 = 0) ∧
    temperature_expression Tmin Tmax 0.5 = Tmax := by
  have hdiv0 : Tmin / temperature_expression Tmin Tmax 0 = 1 := by
    rw [temperature_at_zero, div_self h0]
  have hdiv1 : Tmin / temperature_expression Tmin Tmax 1 = 1 := by
    rw [temperature_at_one, div_self h0]
  refine ⟨⟨?_, ?_, ?_, ?_⟩, ⟨?_, ?_, ?_, ?_⟩, temperature_at_half Tmin Tmax⟩ <;>
    simp [solute_scale_expr, inter_scale_expr, steric_scale_expr,
      electrostatic_scale_expr, hdiv0, hdiv1, Real.sqrt_one]

/-- Witness for C6 (amended) at `T_min = 1, T_max = 2`. -/
theorem protocol_boundary_values_witness :
    ((1 : ℝ) ≠ 0 ∧ (1 : ℝ) < 2) ∧
    ((solute_scale_expr 1 2 0 = 1 ∧ inter_scale_expr 1 2 0 = 1 ∧
      steric_scale_expr 1 2 0 = 0 ∧ electrostatic_scale_expr 1 2 0 = 0) ∧
     (solute_scale_expr 1 2 1 = 1 ∧ inter_scale_expr 1 2 1 = 1 ∧
      steric_scale_expr 1 2 1 = 0 ∧ electrostatic_scale_expr 1 2 1 = 0) ∧
     temperature_expression 1 2 0.5 = 2) :=
  ⟨⟨by norm_num, by norm_num⟩, protocol_boundary_values 1 2 (by norm_num) (by norm_num)⟩

/-- C7 is a code bug: `get_protocol` performs no temperature validation at
all — there is no `InvalidTemperatureRangeError` (or any raise) anywhere in
it. At the claim's rejection input `T_min = 400, T_max = 300` the source
builds and returns the four expression strings as usual; their semantics is
a perfectly defined (inverted) schedule, e.g. `solute_scale(0) = 1` and
`T(0.5) = 300`. -/
theorem get_protocol_no_validation :
    (get_protocol 400 300).map Prod.fst =
      ["solute_scale", "inter_scale", "steric_scale", "electrostatic_scale"] ∧
    solute_scale_expr 400 300 0 = 1 ∧
    temperature_expression 400 300 0.5 = 300 := by
  refine ⟨by simp [get_protocol], ?_, temperature_at_half 400 300⟩
  unfold solute_scale_expr
  rw [temperature_at_zero]
  norm_num

end Kinope
